import Mathlib

/-!
Verification development for the Figma-to-Salt code-generation prototype.

The definitions below are a shallow embedding of the two source files:
  * `salt_component-mapper.ts` (class `SaltComponentMapper`)
  * the LLM code generator / validator file (classes `LLMCodeGenerator`,
    `CodeValidator`)

JavaScript semantics are modelled explicitly: optional fields become
`Option`, JS truthiness tests on strings compare against `""`, numeric
comparisons against `undefined` are `false` (hence `Option` matches), and
JS `Set` insertion-order iteration becomes first-occurrence deduplication.
Numbers are modelled as `Rat` (JS numbers on the inputs involved are
ordinary decimals; no floating-point rounding is exercised by the code's
comparisons at the inputs considered).
-/

namespace CodeGen

/-- Does `needle` occur as a contiguous infix of `hay`? -/
def infixOf (needle : List Char) : List Char → Bool
  | [] => needle.isPrefixOf []
  | h :: t => needle.isPrefixOf (h :: t) || infixOf needle t

/-- JS substring test `haystack.includes(needle)`. -/
def includes (s sub : String) : Bool :=
  infixOf sub.toList s.toList

/-- JS `s.toLowerCase()` (the names involved are ASCII). -/
def toLowerStr (s : String) : String :=
  String.mk (s.toList.map Char.toLower)

/-- A property value: string, number or boolean (`Record<string, any>`
values produced by the mapper are only these). -/
inductive PropValue where
  | s (v : String)
  | n (v : Rat)
  | b (v : Bool)
deriving DecidableEq, Repr

/-- Layout descriptor of a Figma node (`node.layout`). -/
structure Layout where
  mode : Option String := none
  gap : Option Rat := none
  align : Option String := none
  justify : Option String := none
deriving DecidableEq, Repr

/-- One fill entry (`node.fills[i]`): whether `.color` is truthy, and the
optional `.opacity`. -/
structure Fill where
  hasColor : Bool := false
  opacity : Option Rat := none
deriving DecidableEq, Repr

/-- Per-side padding object (`node.padding`). -/
structure Padding where
  top : Rat
  right : Rat
  bottom : Rat
  left : Rat
deriving DecidableEq, Repr

/-- Text style object (`node.style`). -/
structure TextStyle where
  fontSize : Option Rat := none
  fontWeight : Option Rat := none
  textAlign : Option String := none
deriving DecidableEq, Repr

/-- The scalar fields of a Figma design node; children are carried
separately by `FigmaNode`. -/
structure NodeData where
  name : Option String := none
  type : String
  text : Option String := none
  visible : Option Bool := none
  fills : List Fill := []
  cornerRadius : Option Rat := none
  layout : Option Layout := none
  absHeight : Option Rat := none
  style : Option TextStyle := none
  padding : Option Padding := none
deriving DecidableEq, Repr

mutual

/-- A Figma design node: scalar data plus ordered children. -/
inductive FigmaNode where
  | mk (data : NodeData) (children : FigmaForest)

/-- An ordered sequence of Figma design nodes (insertion order = visual
order). -/
inductive FigmaForest where
  | nil
  | cons (head : FigmaNode) (tail : FigmaForest)

end

/-- Build a `FigmaForest` from a list, preserving order. -/
def FigmaForest.ofList : List FigmaNode → FigmaForest
  | [] => .nil
  | n :: ns => .cons n (FigmaForest.ofList ns)

def FigmaNode.data : FigmaNode → NodeData
  | .mk d _ => d

def FigmaNode.children : FigmaNode → FigmaForest
  | .mk _ cs => cs

mutual

/-- A mapped Salt component node (`SaltComponent`): type, props in
insertion order, optional literal text content, import path, ordered
children. -/
inductive SaltComponent where
  | mk (ty : String) (props : List (String × PropValue)) (content : Option String)
      (imp : String) (children : SaltForest)

/-- An ordered sequence of mapped Salt component nodes. -/
inductive SaltForest where
  | nil
  | cons (head : SaltComponent) (tail : SaltForest)

end

/-- Build a `SaltForest` from a list, preserving order. -/
def SaltForest.ofList : List SaltComponent → SaltForest
  | [] => .nil
  | c :: cs => .cons c (SaltForest.ofList cs)

/-- Concatenation of component sequences (models pushing each element in
turn onto the same parent). -/
def SaltForest.append : SaltForest → SaltForest → SaltForest
  | .nil, ys => ys
  | .cons x xs, ys => .cons x (SaltForest.append xs ys)

def SaltComponent.ty : SaltComponent → String
  | .mk t _ _ _ _ => t

def SaltComponent.props : SaltComponent → List (String × PropValue)
  | .mk _ p _ _ _ => p

def SaltComponent.content : SaltComponent → Option String
  | .mk _ _ c _ _ => c

def SaltComponent.imp : SaltComponent → String
  | .mk _ _ _ i _ => i

def SaltComponent.children : SaltComponent → SaltForest
  | .mk _ _ _ _ cs => cs

/-- `SaltComponentMapper.componentMap`, in declaration order (JS object
string keys iterate in insertion order). -/
def componentMap : List (String × String) :=
  [("Button", "@salt-ds/core/Button"),
   ("Input", "@salt-ds/core/Input"),
   ("Card", "@salt-ds/core/Card"),
   ("Text", "@salt-ds/core/Text"),
   ("Stack", "@salt-ds/core/StackLayout"),
   ("Grid", "@salt-ds/core/GridLayout"),
   ("Flex", "@salt-ds/core/FlexLayout"),
   ("Dropdown", "@salt-ds/core/Dropdown"),
   ("Checkbox", "@salt-ds/core/Checkbox"),
   ("Radio", "@salt-ds/core/RadioButton"),
   ("Switch", "@salt-ds/core/Switch"),
   ("Dialog", "@salt-ds/core/Dialog"),
   ("Tabs", "@salt-ds/core/Tabs"),
   ("Avatar", "@salt-ds/core/Avatar"),
   ("Badge", "@salt-ds/core/Badge"),
   ("Tooltip", "@salt-ds/core/Tooltip")]

/-- Catalog keys in declaration order. -/
def catalogKeys : List String := componentMap.map Prod.fst

/-- Case-insensitive substring test used by the classifier:
`name.toLowerCase().includes(key.toLowerCase())`. -/
def nameIncludes (name key : String) : Bool :=
  includes (toLowerStr name) (toLowerStr key)

/-- The name-substring loop over `componentMap` entries: first key (in
declaration order) whose lower-cased form is a substring of the
lower-cased name. -/
def nameMatch (nm : String) : Option String :=
  catalogKeys.find? (fun k => nameIncludes nm k)

/-- The extra keyword patterns of `matchComponentName`, applied to the
lower-cased name. -/
def matchPatterns (n : String) : Option String :=
  if includes n "btn" || includes n "cta" then some "Button"
  else if includes n "input" || includes n "field" then some "Input"
  else if includes n "dropdown" || includes n "select" then some "Dropdown"
  else if includes n "card" || includes n "tile" then some "Card"
  else if includes n "modal" || includes n "dialog" then some "Dialog"
  else none

/-- `SaltComponentMapper.matchComponentName` (COMPONENT/INSTANCE nodes):
catalog substring match, then extra keyword patterns. -/
def matchComponentName (name : Option String) : Option String :=
  match name with
  | none => none
  | some nm =>
    if nm = "" then none
    else
      match nameMatch nm with
      | some k => some k
      | none => matchPatterns (toLowerStr nm)

/-- `node.layout?.mode`. -/
def layoutMode (d : NodeData) : Option String :=
  d.layout.bind Layout.mode

/-- JS `node.cornerRadius > 0` (false when the field is absent). -/
def cornerPositive (d : NodeData) : Bool :=
  match d.cornerRadius with
  | some r => r > 0
  | none => false

/-- JS `node.name?.toLowerCase().includes(sub)` (false when absent). -/
def nameHas (d : NodeData) (sub : String) : Bool :=
  match d.name with
  | some nm => includes (toLowerStr nm) sub
  | none => false

/-- The leading name-hint block of `detectComponentType`: `if (node.name)`
guarded (empty string is JS-falsy) loop over `componentMap`. -/
def detectByName (d : NodeData) : Option String :=
  match d.name with
  | some nm => if nm = "" then none else nameMatch nm
  | none => none

/-- `SaltComponentMapper.detectComponentType`. -/
def detectComponentType (d : NodeData) : Option String :=
  match detectByName d with
  | some k => some k
  | none =>
    if d.type = "TEXT" then some "Text"
    else if d.type = "FRAME" then
      if layoutMode d = some "VERTICAL" then some "Stack"
      else if layoutMode d = some "HORIZONTAL" then some "Flex"
      else if cornerPositive d then some "Card"
      else some "Box"
    else if d.type = "RECTANGLE" then
      if nameHas d "button" then some "Button"
      else if cornerPositive d then some "Card"
      else some "Box"
    else if d.type = "COMPONENT" ∨ d.type = "INSTANCE" then
      matchComponentName d.name
    else none

/-- `SaltComponentMapper.mapSpacing` on a plain number. -/
def mapSpacingNum (v : Rat) : Nat :=
  if v ≤ 4 then 1
  else if v ≤ 8 then 2
  else if v ≤ 16 then 3
  else if v ≤ 24 then 4
  else if v ≤ 32 then 5
  else 6

/-- `mapSpacing` applied to an optional gap: a JS `undefined` fails every
`<=` comparison and falls through to bucket 6. -/
def mapSpacingOpt (g : Option Rat) : Nat :=
  match g with
  | some v => mapSpacingNum v
  | none => 6

/-- `mapSpacing` applied to a padding object: averages the four sides. -/
def mapSpacingPad (p : Padding) : Nat :=
  mapSpacingNum ((p.top + p.right + p.bottom + p.left) / 4)

/-- `SaltComponentMapper.mapAlignment`. -/
def mapAlignment (a : Option String) : String :=
  match a with
  | some "MIN" => "start"
  | some "CENTER" => "center"
  | some "MAX" => "end"
  | some "SPACE_BETWEEN" => "stretch"
  | _ => "start"

/-- `SaltComponentMapper.mapJustify`. -/
def mapJustify (j : Option String) : String :=
  match j with
  | some "MIN" => "start"
  | some "CENTER" => "center"
  | some "MAX" => "end"
  | some "SPACE_BETWEEN" => "space-between"
  | some "SPACE_AROUND" => "space-around"
  | some "SPACE_EVENLY" => "space-evenly"
  | _ => "start"

/-- `SaltComponentMapper.detectButtonVariant`. -/
def detectButtonVariant (d : NodeData) : String :=
  let name := (d.name.map toLowerStr).getD ""
  if includes name "primary" || (d.fills.head?.map Fill.hasColor).getD false then "primary"
  else if includes name "secondary" then "secondary"
  else if includes name "ghost" || includes name "text" then "ghost"
  else "primary"

/-- `SaltComponentMapper.detectSize`; comparisons against an absent
height are JS-false. -/
def detectSize (d : NodeData) : String :=
  let name := (d.name.map toLowerStr).getD ""
  let hLt : Bool := match d.absHeight with | some h => h < 32 | none => false
  let hGt : Bool := match d.absHeight with | some h => h > 48 | none => false
  if includes name "small" || hLt then "small"
  else if includes name "large" || hGt then "large"
  else "medium"

/-- `SaltComponentMapper.extractStyleProps`; each field is added only
when JS-truthy (present, nonzero / nonempty). -/
def extractStyleProps (st : TextStyle) : List (String × PropValue) :=
  (match st.fontSize with
   | some v => if v ≠ 0 then [("fontSize", PropValue.n v)] else []
   | none => []) ++
  (match st.fontWeight with
   | some v => if v ≠ 0 then [("fontWeight", PropValue.n v)] else []
   | none => []) ++
  (match st.textAlign with
   | some a => if a ≠ "" then [("textAlign", PropValue.s (toLowerStr a))] else []
   | none => [])

/-- JS `node.fills[0].opacity < 1` (false when opacity is absent). -/
def opacityLtOne (f : Fill) : Bool :=
  match f.opacity with
  | some o => o < 1
  | none => false

/-- The Input placeholder expression `node.name || 'Enter text...'`. -/
def inputPlaceholder (name : Option String) : String :=
  match name with
  | some nm => if nm = "" then "Enter text..." else nm
  | none => "Enter text..."

/-- `SaltComponentMapper.extractProps`, preserving JS property insertion
order. -/
def extractProps (d : NodeData) (componentType : String) : List (String × PropValue) :=
  let common := if d.visible = some false then [("hidden", PropValue.b true)] else []
  let specific :=
    if componentType = "Button" then
      [("variant", PropValue.s (detectButtonVariant d)),
       ("size", PropValue.s (detectSize d))] ++
      (if nameHas d "disabled" then [("disabled", PropValue.b true)] else [])
    else if componentType = "Input" then
      [("placeholder", PropValue.s (inputPlaceholder d.name))] ++
      (if nameHas d "error" then [("validationStatus", PropValue.s "error")] else [])
    else if componentType = "Card" then
      (match d.fills.head? with
       | some f =>
         [("variant", PropValue.s (if opacityLtOne f then "secondary" else "primary"))]
       | none => []) ++
      (match d.padding with
       | some p => [("padding", PropValue.n (mapSpacingPad p))]
       | none => [])
    else if componentType = "Stack" ∨ componentType = "Flex" then
      match d.layout with
      | some l =>
        [("gap", PropValue.n (mapSpacingOpt l.gap)),
         ("align", PropValue.s (mapAlignment l.align))] ++
        (if componentType = "Flex" then [("justify", PropValue.s (mapJustify l.justify))] else [])
      | none => []
    else []
  let styleProps :=
    match d.style with
    | some st => extractStyleProps st
    | none => []
  common ++ specific ++ styleProps

/-- The literal text content attached by `createSaltComponent`
(`node.type === 'TEXT' && node.text`, with `""` JS-falsy). -/
def contentOf (d : NodeData) : Option String :=
  if d.type = "TEXT" then
    match d.text with
    | some t => if t = "" then none else some t
    | none => none
  else none

/-- Import path of a detected component type:
`componentMap[componentType] || componentType`. -/
def importOf (componentType : String) : String :=
  (componentMap.lookup componentType).getD componentType

/-- The component built by `createSaltComponent` for a node classified
as `t`, with the given already-mapped children. -/
def compOf (d : NodeData) (t : String) (children : SaltForest) : SaltComponent :=
  SaltComponent.mk t (extractProps d t) (contentOf d) (importOf t) children

/-- `SaltComponentMapper.createSaltComponent` (children still empty). -/
def createSaltComponent (d : NodeData) : Option SaltComponent :=
  match detectComponentType d with
  | none => none
  | some t => some (compOf d t .nil)

mutual

/-- `SaltComponentMapper.processNode` read functionally: the sequence of
components one design node contributes to the current mapped parent. A
classified node becomes one output component whose children are the
mapped children; an unclassified node contributes its mapped children
directly ("bubble up"). -/
def mapNode : FigmaNode → SaltForest
  | .mk d cs =>
    match detectComponentType d with
    | some t => .cons (compOf d t (mapForest cs)) .nil
    | none => mapForest cs

/-- Mapping of a sequence of sibling design nodes, in order. -/
def mapForest : FigmaForest → SaltForest
  | .nil => .nil
  | .cons n ns => SaltForest.append (mapNode n) (mapForest ns)

end

/-- `SaltComponentMapper.mapToSaltComponents` applied to the structure
root: the returned `components` array. -/
def mapToSaltComponents (root : FigmaNode) : SaltForest :=
  mapNode root

mutual

/-- All components of the subtree rooted at a mapped component, in
pre-order. -/
def allCompsC : SaltComponent → List SaltComponent
  | .mk t p ct i cs => SaltComponent.mk t p ct i cs :: allCompsF cs

/-- All components occurring in a mapped forest, in pre-order. -/
def allCompsF : SaltForest → List SaltComponent
  | .nil => []
  | .cons c cs => allCompsC c ++ allCompsF cs

end

mutual

/-- Import paths visited by `buildComponentTree`, in visit order: the
component's own import, then its children's, then its siblings'. -/
def collectImportsC : SaltComponent → List String
  | .mk _ _ _ i cs => i :: collectImportsF cs

/-- Import paths visited for a whole forest. -/
def collectImportsF : SaltForest → List String
  | .nil => []
  | .cons c cs => collectImportsC c ++ collectImportsF cs

end

/-- First-occurrence deduplication with an accumulator of already-seen
keys (JS `Set` iterates in insertion order). -/
def dedupFirstAux (seen : List String) : List String → List String
  | [] => []
  | x :: xs =>
    if x ∈ seen then dedupFirstAux seen xs
    else x :: dedupFirstAux (x :: seen) xs

/-- First-occurrence deduplication, the iteration order of a JS `Set`
populated by successive `add` calls. -/
def dedupFirst (l : List String) : List String :=
  dedupFirstAux [] l

/-- `imp.split('/')` at the character level. -/
def splitOnSlash : List Char → List (List Char)
  | [] => [[]]
  | c :: cs =>
    let r := splitOnSlash cs
    if c = '/' then [] :: r
    else
      match r with
      | [] => [[c]]
      | seg :: rest => (c :: seg) :: rest

/-- `imp.split('/').pop()`: the final path segment. -/
def lastSegment (s : String) : String :=
  String.mk ((splitOnSlash s.toList).getLastD [])

/-- One rendered import line:
`import { <lastSegment> } from '<imp>';`. -/
def importLine (imp : String) : String :=
  "import \x7b " ++ lastSegment imp ++ " \x7d from \x27" ++ imp ++ "\x27;"

/-- The distinct import paths of a mapped forest, in first-visit order
(the iteration order of the `imports` Set in
`generateComponentContext`). -/
def importPaths (f : SaltForest) : List String :=
  dedupFirst (collectImportsF f)

/-- The import section of `generateComponentContext`: one rendered line
per distinct import path. (The rest of the prompt — hierarchy
pretty-print and fixed text — does not bear on the claims and is not
embedded.) -/
def importLines (f : SaltForest) : List String :=
  (importPaths f).map importLine

/-- The `/`-separated segments of a module path. -/
def segmentsOf (s : String) : List String :=
  (splitOnSlash s.toList).map String.mk

/-- For a scoped module path `@scope/pkg/rest/...` the package scope is
the two leading segments `@scope/pkg`; this returns the first segment
after them. -/
def firstSegmentAfterScope (s : String) : Option String :=
  (segmentsOf s).get? 2

/-- Result shape of `CodeValidator.validateReactCode`. -/
structure ValidationResult where
  valid : Bool
  errors : List String
  suggestions : List String
deriving DecidableEq, Repr

/-- The five catalog components the second validator checks for
usage-without-import. -/
def checkedComponents : List String :=
  ["Button", "Input", "Card", "Stack", "Flex"]

/-- `CodeValidator.validateReactCode`. The usage-without-import check
tests for the LITERAL substring `import.*<comp>.*from.*@salt-ds`
(the source uses a template string inside `includes`, not a regex). -/
def validateReactCode (code : String) : ValidationResult :=
  let saltImportErrors :=
    if includes code "@salt-ds/core" then []
    else ["Missing Salt Design System imports"]
  let hasExport := includes code "export default" || includes code "export \x7b"
  let exportErrors := if hasExport then [] else ["Component must be exported"]
  let styleSuggestions :=
    if includes code "className=" && !(includes code "styles.") then
      ["Consider using CSS modules or styled-components for styling"]
    else []
  let keySuggestions :=
    if !(includes code "key=") && includes code ".map(" then
      ["Add key props to mapped elements"]
    else []
  let componentErrors :=
    checkedComponents.filterMap (fun comp =>
      if includes code ("<" ++ comp) &&
          !(includes code ("import.*" ++ comp ++ ".*from.*@salt-ds")) then
        some (comp ++ " component used but not imported from Salt")
      else none)
  let errors := saltImportErrors ++ exportErrors ++ componentErrors
  { valid := errors.isEmpty
    errors := errors
    suggestions := styleSuggestions ++ keySuggestions }

/-- `LLMCodeGenerator.fetchExampleFromQnA`: a thrown request error is
caught and becomes `null`; a missing or empty (`''` is JS-falsy) answer
becomes `null` via `response.data.answer || null`. -/
def fetchExampleFromQnA (remote : String → Except Unit (Option String)) (t : String) :
    Option String :=
  match remote t with
  | .error _ => none
  | .ok none => none
  | .ok (some a) => if a = "" then none else some a

/-- The top-level component types of a mapped forest, in order
(`components.map(c => c.type)`; descendants are not visited). -/
def forestTypes : SaltForest → List String
  | .nil => []
  | .cons c cs => c.ty :: forestTypes cs

/-- The distinct top-level component types
(`new Set(components.map(c => c.type))`, insertion order). -/
def topLevelTypes (f : SaltForest) : List String :=
  dedupFirst (forestTypes f)

/-- `LLMCodeGenerator.fetchRelevantExamples`: walks the component types
in order threading the per-instance `exampleCache`; returns the examples
pushed, the final cache, and the types for which a remote fetch was
issued. Only a successful non-empty response is written to the cache; a
failed or empty lookup adds no example, no cache entry and no warning. -/
def fetchRelevantExamples (remote : String → Except Unit (Option String)) :
    List String → List (String × String) →
    List String × List (String × String) × List String
  | [], cache => ([], cache, [])
  | t :: ts, cache =>
    match cache.lookup t with
    | some e =>
      let r := fetchRelevantExamples remote ts cache
      (e :: r.1, r.2.1, r.2.2)
    | none =>
      match fetchExampleFromQnA remote t with
      | some e =>
        let r := fetchRelevantExamples remote ts (cache ++ [(t, e)])
        (e :: r.1, r.2.1, t :: r.2.2)
      | none =>
        let r := fetchRelevantExamples remote ts cache
        (r.1, r.2.1, t :: r.2.2)

/-! ### Concrete inputs used by the claim theorems -/

/-- The spec's end-to-end scenario tree: a vertical-auto-layout frame
with a TEXT child ("Hello") and a RECTANGLE child named
"Submit Button". -/
def helloTree : FigmaNode :=
  .mk { type := "FRAME", layout := some { mode := some "VERTICAL" } }
    (.cons (.mk { type := "TEXT", text := some "Hello" } .nil)
      (.cons (.mk { type := "RECTANGLE", name := some "Submit Button" } .nil) .nil))

/-- A classifiable root: vertical auto-layout frame. -/
def wrapRootData : NodeData := { type := "FRAME", layout := some { mode := some "VERTICAL" } }

/-- An unclassifiable wrapper: a GROUP node with no name. -/
def wrapperData : NodeData := { type := "GROUP" }

/-- A classifiable grandchild: a TEXT node. -/
def grandChildData : NodeData := { type := "TEXT", text := some "Hi" }

/-- Root with an unclassifiable wrapper child holding one classifiable
grandchild. -/
def wrapperTree : FigmaNode :=
  .mk wrapRootData (.cons (.mk wrapperData (.cons (.mk grandChildData .nil) .nil)) .nil)

/-- A COMPONENT node named "Email Input": its name contains "email" and
it classifies as Input. -/
def emailInputNode : NodeData := { name := some "Email Input", type := "COMPONENT" }

/-- A TEXT node with font size 32 and CENTER alignment. -/
def headingNode : NodeData :=
  { type := "TEXT", style := some { fontSize := some 32, textAlign := some "CENTER" } }

/-- A FRAME with no name, no auto-layout and no corner radius: classified
as the generic `Box`. -/
def plainFrame : FigmaNode := .mk { type := "FRAME" } .nil

/-- Code using `<Button` with a `@salt-ds/core` import that does not
mention Button, and a default export. -/
def codeMissingButtonImport : String :=
  "import \x7b Card \x7d from \x27@salt-ds/core\x27;\nexport default function App() \x7b return <Button />; \x7d"

/-- Code with a `@salt-ds/core` import and a default export and no
catalog component tags. -/
def codeValidExample : String :=
  "import \x7b SaltProvider \x7d from \x27@salt-ds/core\x27;\nexport default App;"

/-! ### Helper lemmas -/

theorem mem_dedupFirstAux (m : String) :
    ∀ (l seen : List String), m ∈ dedupFirstAux seen l ↔ m ∈ l ∧ m ∉ seen
  | [], seen => by simp [dedupFirstAux]
  | x :: xs, seen => by
    by_cases hx : x ∈ seen
    · rw [dedupFirstAux, if_pos hx, mem_dedupFirstAux m xs seen]
      constructor
      · exact fun h => ⟨List.mem_cons_of_mem _ h.1, h.2⟩
      · rintro ⟨h1, h2⟩
        rcases List.mem_cons.mp h1 with rfl | h1
        · exact absurd hx h2
        · exact ⟨h1, h2⟩
    · rw [dedupFirstAux, if_neg hx]
      rw [List.mem_cons, mem_dedupFirstAux m xs (x :: seen)]
      constructor
      · rintro (rfl | ⟨h1, h2⟩)
        · exact ⟨List.mem_cons_self _ _, hx⟩
        · exact ⟨List.mem_cons_of_mem _ h1, fun hs => h2 (List.mem_cons_of_mem _ hs)⟩
      · rintro ⟨h1, h2⟩
        by_cases hmx : m = x
        · exact Or.inl hmx
        · rcases List.mem_cons.mp h1 with rfl | h1
          · exact absurd rfl hmx
          · refine Or.inr ⟨h1, fun hs => ?_⟩
            rcases List.mem_cons.mp hs with rfl | hs
            · exact hmx rfl
            · exact h2 hs

theorem nodup_dedupFirstAux : ∀ (l seen : List String), (dedupFirstAux seen l).Nodup
  | [], _ => by simp [dedupFirstAux]
  | x :: xs, seen => by
    by_cases hx : x ∈ seen
    · rw [dedupFirstAux, if_pos hx]
      exact nodup_dedupFirstAux xs seen
    · rw [dedupFirstAux, if_neg hx]
      refine List.nodup_cons.mpr ⟨fun hmem => ?_, nodup_dedupFirstAux xs (x :: seen)⟩
      exact ((mem_dedupFirstAux x xs (x :: seen)).mp hmem).2 (List.mem_cons_self _ _)

theorem mem_dedupFirst (m : String) (l : List String) : m ∈ dedupFirst l ↔ m ∈ l := by
  rw [dedupFirst, mem_dedupFirstAux]
  simp

theorem count_dedupFirst (l : List String) (m : String) :
    (dedupFirst l).count m = if m ∈ l then 1 else 0 := by
  by_cases h : m ∈ l
  · rw [if_pos h]
    exact List.count_eq_one_of_mem (nodup_dedupFirstAux l []) ((mem_dedupFirst m l).mpr h)
  · rw [if_neg h]
    exact List.count_eq_zero.mpr (fun hm => h ((mem_dedupFirst m l).mp hm))

theorem allCompsF_append :
    ∀ (a b : SaltForest), allCompsF (SaltForest.append a b) = allCompsF a ++ allCompsF b
  | .nil, b => by simp [SaltForest.append, allCompsF]
  | .cons c cs, b => by
    simp [SaltForest.append, allCompsF, allCompsF_append cs b]

theorem find?_take_false (p : String → Bool) :
    ∀ (l : List String) (r : String), l.find? p = some r →
      ∀ k ∈ l.take (l.indexOf r), p k = false
  | [], r, h => by simp [List.find?] at h
  | a :: l, r, h => by
    by_cases hpa : p a
    · rw [List.find?_cons_of_pos _ hpa] at h
      obtain rfl : a = r := by injection h
      simp [List.indexOf_cons_self]
    · rw [List.find?_cons_of_neg _ (by simpa using hpa)] at h
      have hpr := List.find?_some h
      have har : a ≠ r := by
        rintro rfl
        exact hpa hpr
      rw [List.indexOf_cons_ne _ har]
      intro k hk
      rw [List.take_succ_cons] at hk
      rcases List.mem_cons.mp hk with rfl | hk
      · simpa using hpa
      · exact find?_take_false p l r h k hk

theorem nameMatch_mem {nm k : String} (h : nameMatch nm = some k) : k ∈ catalogKeys :=
  List.mem_of_find?_eq_some h

theorem matchComponentName_mem {name : Option String} {k : String}
    (h : matchComponentName name = some k) : k ∈ catalogKeys := by
  unfold matchComponentName at h
  split at h
  next => simp at h
  next nm =>
    split_ifs at h
    cases hm : nameMatch nm with
    | some k2 =>
      rw [hm] at h
      obtain rfl := Option.some.inj h
      exact nameMatch_mem hm
    | none =>
      rw [hm] at h
      unfold matchPatterns at h
      split_ifs at h <;>
        (obtain rfl := Option.some.inj h; decide)

theorem detectByName_mem {d : NodeData} {k : String} (h : detectByName d = some k) :
    k ∈ catalogKeys := by
  unfold detectByName at h
  split at h
  next nm =>
    split_ifs at h
    exact nameMatch_mem h
  next => simp at h

theorem detect_goodTy {d : NodeData} {t : String} (h : detectComponentType d = some t) :
    t = "Box" ∨ t ∈ catalogKeys := by
  unfold detectComponentType at h
  cases hb : detectByName d with
  | some k =>
    rw [hb] at h
    obtain rfl := Option.some.inj h
    exact Or.inr (detectByName_mem hb)
  | none =>
    rw [hb] at h
    split_ifs at h <;>
      first
      | (obtain rfl := Option.some.inj h; decide)
      | (exact Or.inr (matchComponentName_mem h))

theorem lookup_none_of_keys {l : List (String × PropValue)} {k : String}
    (h : ∀ p ∈ l, p.1 ≠ k) : l.lookup k = none := by
  induction l with
  | nil => rfl
  | cons a l ih =>
    obtain ⟨k1, v1⟩ := a
    have hk : (k == k1) = false :=
      beq_eq_false_iff_ne.mpr fun he => h (k1, v1) (List.mem_cons_self _ _) he.symm
    simp only [List.lookup, hk]
    exact ih fun p hp => h p (List.mem_cons_of_mem _ hp)

theorem extractStyleProps_keys (st : TextStyle) :
    ∀ p ∈ extractStyleProps st, p.1 = "fontSize" ∨ p.1 = "fontWeight" ∨ p.1 = "textAlign" := by
  obtain ⟨fs, fw, ta⟩ := st
  intro p hp
  unfold extractStyleProps at hp
  rcases List.mem_append.mp hp with hp | hp
  · rcases List.mem_append.mp hp with hp | hp
    · left
      cases fs with
      | none => simp at hp
      | some v =>
        dsimp only at hp
        split_ifs at hp
        · obtain rfl : p = ("fontSize", PropValue.n v) := by simpa using hp
          rfl
        · simp at hp
    · right; left
      cases fw with
      | none => simp at hp
      | some v =>
        dsimp only at hp
        split_ifs at hp
        · obtain rfl : p = ("fontWeight", PropValue.n v) := by simpa using hp
          rfl
        · simp at hp
  · right; right
    cases ta with
    | none => simp at hp
    | some a =>
      dsimp only at hp
      split_ifs at hp
      · obtain rfl : p = ("textAlign", PropValue.s (toLowerStr a)) := by simpa using hp
        rfl
      · simp at hp

theorem lookup_append_right {cache : List (String × String)} {t : String}
    (h : cache.lookup t = none) (e : String) :
    (cache ++ [(t, e)]).lookup t = some e := by
  induction cache with
  | nil => simp [List.lookup]
  | cons a l ih =>
    obtain ⟨k, v⟩ := a
    cases hk : (t == k) with
    | true => simp [List.lookup, hk] at h
    | false =>
      simp only [List.lookup, hk] at h
      simpa only [List.cons_append, List.lookup, hk] using ih h

theorem fetch_cache_sound (remote : String → Except Unit (Option String)) :
    ∀ (types : List String) (cache : List (String × String)) (p : String × String),
      p ∈ (fetchRelevantExamples remote types cache).2.1 →
      p ∈ cache ∨ fetchExampleFromQnA remote p.1 = some p.2
  | [], cache, p => by
    intro hp
    exact Or.inl (by simpa [fetchRelevantExamples] using hp)
  | t :: ts, cache, p => by
    intro hp
    cases hl : cache.lookup t with
    | some e =>
      have hp2 : p ∈ (fetchRelevantExamples remote ts cache).2.1 := by
        simpa [fetchRelevantExamples, hl] using hp
      exact fetch_cache_sound remote ts cache p hp2
    | none =>
      cases hq : fetchExampleFromQnA remote t with
      | some e =>
        have hp2 : p ∈ (fetchRelevantExamples remote ts (cache ++ [(t, e)])).2.1 := by
          simpa [fetchRelevantExamples, hl, hq] using hp
        rcases fetch_cache_sound remote ts (cache ++ [(t, e)]) p hp2 with hcc | hcc
        · rcases List.mem_append.mp hcc with hcc | hcc
          · exact Or.inl hcc
          · obtain rfl : p = (t, e) := by simpa using hcc
            exact Or.inr hq
        · exact Or.inr hcc
      | none =>
        have hp2 : p ∈ (fetchRelevantExamples remote ts cache).2.1 := by
          simpa [fetchRelevantExamples, hl, hq] using hp
        exact fetch_cache_sound remote ts cache p hp2

mutual

theorem mapNode_types : ∀ (n : FigmaNode) (c : SaltComponent),
    c ∈ allCompsF (mapNode n) → c.ty = "Box" ∨ c.ty ∈ catalogKeys
  | .mk d cs, c => by
    intro hc
    cases h : detectComponentType d with
    | none =>
      rw [mapNode, h] at hc
      exact mapForest_types cs c hc
    | some t =>
      rw [mapNode, h] at hc
      simp only [allCompsF, allCompsC, compOf, List.append_nil] at hc
      rcases List.mem_cons.mp hc with rfl | hc
      · simpa [SaltComponent.ty] using detect_goodTy h
      · exact mapForest_types cs c hc

theorem mapForest_types : ∀ (l : FigmaForest) (c : SaltComponent),
    c ∈ allCompsF (mapForest l) → c.ty = "Box" ∨ c.ty ∈ catalogKeys
  | .nil, c => by
    intro hc
    exact absurd hc (by simp [mapForest, allCompsF])
  | .cons n ns, c => by
    intro hc
    rw [mapForest, allCompsF_append] at hc
    rcases List.mem_append.mp hc with hc | hc
    · exact mapNode_types n c hc
    · exact mapForest_types ns c hc

end

/-! ### Claim theorems -/

/-- C1: mapping the Design Node tree
`{type: frame, layoutMode: VERTICAL, children: [{type: TEXT, text: "Hello"},
{type: RECTANGLE, name: "Submit Button"}]}` through the Tree Mapper
produces a single stack-container root with exactly two children in
order: a text node with literal content "Hello" and a button node whose
props include `variant = "primary"` and `size = "medium"` (here: whose
props are exactly those two). -/
theorem c1_end_to_end :
    mapToSaltComponents helloTree =
      .cons (SaltComponent.mk "Stack"
          [("gap", PropValue.n 6), ("align", PropValue.s "start")] none
          "@salt-ds/core/StackLayout"
          (.cons (SaltComponent.mk "Text" [] (some "Hello") "@salt-ds/core/Text" .nil)
            (.cons (SaltComponent.mk "Button"
                [("variant", PropValue.s "primary"), ("size", PropValue.s "medium")]
                none "@salt-ds/core/Button" .nil) .nil))) .nil := rfl

/-- C2: an unclassified Design Node produces no output node and its
children are mapped against the unchanged current parent; in particular a
classified root with an unclassifiable wrapper child holding one
classifiable grandchild maps to the root component with the grandchild's
component as its direct child (no intermediate node). -/
theorem c2_flattening :
    (∀ (d : NodeData) (cs : FigmaForest), detectComponentType d = none →
        mapNode (.mk d cs) = mapForest cs) ∧
    (∀ (r w g : NodeData) (gcs : FigmaForest) (tr tg : String),
        detectComponentType r = some tr →
        detectComponentType w = none →
        detectComponentType g = some tg →
        mapToSaltComponents
            (.mk r (.cons (.mk w (.cons (.mk g gcs) .nil)) .nil)) =
          .cons (compOf r tr (.cons (compOf g tg (mapForest gcs)) .nil)) .nil) := by
  constructor
  · intro d cs h
    rw [mapNode, h]
  · intro r w g gcs tr tg hr hw hg
    simp only [mapToSaltComponents, mapNode, mapForest, hr, hw, hg, SaltForest.append]

/-- Witness for C2 at a concrete tree: vertical frame root, unnamed GROUP
wrapper, TEXT grandchild. -/
theorem c2_flattening_witness :
    mapToSaltComponents wrapperTree =
      .cons (compOf wrapRootData "Stack" (.cons (compOf grandChildData "Text" .nil) .nil)) .nil :=
  c2_flattening.2 wrapRootData wrapperData grandChildData .nil "Stack" "Text" rfl rfl rfl

/-- C3 counterexample: the node named "Email Input" resolves to Input and
its name contains "email", yet the extracted placeholder is the raw name
"Email Input", not the keyword text "Enter email address" claimed by the
spec. -/
theorem c3_counterexample :
    detectComponentType emailInputNode = some "Input" ∧
    nameIncludes "Email Input" "email" = true ∧
    extractProps emailInputNode "Input" = [("placeholder", PropValue.s "Email Input")] ∧
    PropValue.s "Email Input" ≠ PropValue.s "Enter email address" :=
  ⟨rfl, rfl, rfl, by decide⟩

/-- C3 amended: for every node resolved to Input, the placeholder prop is
`node.name || 'Enter text...'` — the raw display name when present and
non-empty, otherwise the generic fallback; no keyword lookup and no
child-text fallback occurs. -/
theorem c3_placeholder_amended (d : NodeData) :
    (extractProps d "Input").lookup "placeholder" =
      some (PropValue.s (inputPlaceholder d.name)) ∧
    inputPlaceholder (some "Email Input") = "Email Input" ∧
    inputPlaceholder (some "") = "Enter text..." ∧
    inputPlaceholder none = "Enter text..." := by
  refine ⟨?_, rfl, rfl, rfl⟩
  by_cases hv : d.visible = some false <;>
    simp [extractProps, hv, List.lookup]

/-- C4 counterexample: a TEXT node with font size 32 and CENTER
alignment resolves to Text, but its extracted props contain no `styleAs`
key and no `align` key — only the verbatim `fontSize` and the lower-cased
`textAlign` — contradicting the claimed size-tier `styleAs` prop and
`align` prop. -/
theorem c4_counterexample :
    detectComponentType headingNode = some "Text" ∧
    (extractProps headingNode "Text").lookup "styleAs" = none ∧
    (extractProps headingNode "Text").lookup "align" = none ∧
    extractProps headingNode "Text" =
      [("fontSize", PropValue.n 32), ("textAlign", PropValue.s "center")] :=
  ⟨rfl, rfl, rfl, rfl⟩

/-- C4 amended: Text nodes get no component-specific props at all; their
props are the common `hidden` flag plus the style props copied verbatim
(`fontSize`, `fontWeight`, and `textAlign` lower-cased — not `align`),
and in particular no `styleAs` or `align` prop is ever produced. -/
theorem c4_text_props_amended :
    (∀ (d : NodeData), extractProps d "Text" =
        (if d.visible = some false then [("hidden", PropValue.b true)] else []) ++
          (match d.style with
           | some st => extractStyleProps st
           | none => [])) ∧
    (∀ (st : TextStyle) (a : String), st.textAlign = some a → a ≠ "" →
        ("textAlign", PropValue.s (toLowerStr a)) ∈ extractStyleProps st) ∧
    (∀ (d : NodeData), (extractProps d "Text").lookup "styleAs" = none ∧
        (extractProps d "Text").lookup "align" = none) := by
  have hprops : ∀ (d : NodeData), extractProps d "Text" =
      (if d.visible = some false then [("hidden", PropValue.b true)] else []) ++
        (match d.style with
         | some st => extractStyleProps st
         | none => []) := by
    intro d
    simp [extractProps]
  have hkeys : ∀ (d : NodeData) (p : String × PropValue), p ∈ extractProps d "Text" →
      p.1 = "hidden" ∨ p.1 = "fontSize" ∨ p.1 = "fontWeight" ∨ p.1 = "textAlign" := by
    intro d p hp
    rw [hprops d] at hp
    rcases List.mem_append.mp hp with hp | hp
    · split_ifs at hp
      · obtain rfl : p = ("hidden", PropValue.b true) := by simpa using hp
        exact Or.inl rfl
      · simp at hp
    · cases hst : d.style with
      | none => rw [hst] at hp; simp at hp
      | some st =>
        rw [hst] at hp
        exact Or.inr (extractStyleProps_keys st p hp)
  refine ⟨hprops, ?_, ?_⟩
  · intro st a ha hne
    obtain ⟨fs, fw, ta⟩ := st
    obtain rfl : ta = some a := ha
    unfold extractStyleProps
    dsimp only
    rw [if_pos hne]
    simp
  · intro d
    constructor
    · exact lookup_none_of_keys fun p hp => by
        rcases hkeys d p hp with h | h | h | h <;> simp [h]
    · exact lookup_none_of_keys fun p hp => by
        rcases hkeys d p hp with h | h | h | h <;> simp [h]

/-- Witness for C4's amended theorem at a concrete style: a text node
with CENTER alignment gets `("textAlign", "center")`. -/
theorem c4_text_props_witness :
    ("textAlign", PropValue.s (toLowerStr "CENTER")) ∈
      extractStyleProps { textAlign := some "CENTER" } :=
  c4_text_props_amended.2.1 { textAlign := some "CENTER" } "CENTER" rfl (by decide)

/-- C5 counterexample: the bucket function is not idempotent — bucket 5
is 2, but bucket (bucket 5) = bucket 2 = 1. -/
theorem c5_counterexample :
    mapSpacingNum ((mapSpacingNum 5 : Nat) : Rat) ≠ mapSpacingNum 5 := by decide

/-- C5 amended: the spacing bucket is monotonic and rounds down at the
exact boundaries (bucket 4 = 1, 8 = 2, 16 = 3, 24 = 4, 32 = 5, 33 = 6);
it is NOT idempotent (see the counterexample). -/
theorem c5_bucket_amended :
    (∀ x y : Rat, x ≤ y → mapSpacingNum x ≤ mapSpacingNum y) ∧
    mapSpacingNum 4 = 1 ∧ mapSpacingNum 8 = 2 ∧ mapSpacingNum 16 = 3 ∧
    mapSpacingNum 24 = 4 ∧ mapSpacingNum 32 = 5 ∧ mapSpacingNum 33 = 6 := by
  refine ⟨fun x y hxy => ?_, by decide, by decide, by decide, by decide, by decide, by decide⟩
  unfold mapSpacingNum
  split_ifs <;> first | omega | (exfalso; linarith)

/-- Witness for C5's amended theorem: monotonicity applied at 3 ≤ 40. -/
theorem c5_bucket_witness :
    (3 : Rat) ≤ 40 ∧ mapSpacingNum 3 ≤ mapSpacingNum 40 :=
  ⟨by norm_num, c5_bucket_amended.1 3 40 (by norm_num)⟩

/-- C6 counterexample: a plain FRAME (no name, no auto-layout, no corner
radius) maps to a node of type "Box", which is not a key of the
catalog. -/
theorem c6_counterexample :
    mapToSaltComponents plainFrame =
      .cons (SaltComponent.mk "Box" [] none "Box" .nil) .nil ∧
    "Box" ∉ catalogKeys :=
  ⟨rfl, by decide⟩

/-- C6 amended: every node produced by the Tree Mapper, for any input
tree, has a type that is either a catalog key or the extra generic type
"Box". -/
theorem c6_types_amended (root : FigmaNode) (c : SaltComponent)
    (hc : c ∈ allCompsF (mapToSaltComponents root)) :
    c.ty = "Box" ∨ c.ty ∈ catalogKeys :=
  mapNode_types root c hc

/-- Witness for C6's amended theorem at the plain-frame tree. -/
theorem c6_types_witness :
    SaltComponent.mk "Box" [] none "Box" .nil ∈
      allCompsF (mapToSaltComponents plainFrame) ∧
    ((SaltComponent.mk "Box" [] none "Box" .nil).ty = "Box" ∨
      (SaltComponent.mk "Box" [] none "Box" .nil).ty ∈ catalogKeys) := by
  have hm : SaltComponent.mk "Box" [] none "Box" .nil ∈
      allCompsF (mapToSaltComponents plainFrame) := List.mem_singleton.mpr rfl
  exact ⟨hm, c6_types_amended plainFrame _ hm⟩

/-- C7: the rendered import section has exactly one line per
distinct module path (first-visit order, JS `Set` semantics), and for the catalog
modules (`@salt-ds/core/<Name>`) each line displays the first segment
after the package scope `@salt-ds/core` as the imported symbol. -/
theorem c7_import_section (f : SaltForest) :
    importLines f = (importPaths f).map importLine ∧
    (∀ m : String, (importPaths f).count m = if m ∈ collectImportsF f then 1 else 0) ∧
    (∀ p ∈ importPaths f, p ∈ componentMap.map Prod.snd →
        importLine p =
          "import \x7b " ++ ((segmentsOf p)[2]?).getD "" ++ " \x7d from \x27" ++ p ++ "\x27;") := by
  refine ⟨rfl, fun m => count_dedupFirst _ m, fun p _ hcat => ?_⟩
  fin_cases hcat <;> rfl

/-- Witness for C7 at the end-to-end tree: the StackLayout module gets
exactly one line, displaying the symbol `StackLayout`. -/
theorem c7_import_section_witness :
    (importPaths (mapToSaltComponents helloTree)).count "@salt-ds/core/StackLayout" = 1 ∧
    importLine "@salt-ds/core/StackLayout" =
      "import \x7b StackLayout \x7d from \x27@salt-ds/core/StackLayout\x27;" := by
  constructor
  · have h := (c7_import_section (mapToSaltComponents helloTree)).2.1 "@salt-ds/core/StackLayout"
    rw [h]
    decide
  · exact (c7_import_section (mapToSaltComponents helloTree)).2.2 "@salt-ds/core/StackLayout"
      (by decide) (by decide)

/-- C8: `validateReactCode` reports `valid` exactly when its error list
is empty; code using `<Button` without an import mentioning Button yields
exactly the one Button error; code with a default export and a
`@salt-ds/core` import and no catalog component tags is valid. -/
theorem c8_validator :
    (∀ code : String,
        (validateReactCode code).valid = true ↔ (validateReactCode code).errors = []) ∧
    (validateReactCode codeMissingButtonImport).errors =
      ["Button component used but not imported from Salt"] ∧
    validateReactCode codeValidExample =
      { valid := true, errors := [], suggestions := [] } := by
  refine ⟨fun code => ?_, rfl, rfl⟩
  simp only [validateReactCode]
  exact List.isEmpty_iff

/-- C9: example fetching — a failed or empty lookup produces no example
and no cache entry (non-fatal); a successful non-empty lookup is cached
and a later call for the same type issues no fetch; after a failure the
next call fetches again; every cache entry ever added comes from a
successful non-empty response. -/
theorem c9_example_cache :
    (∀ (remote remote2 : String → Except Unit (Option String))
        (cache : List (String × String)) (t : String),
      cache.lookup t = none →
      (fetchExampleFromQnA remote t = none →
        fetchRelevantExamples remote [t] cache = ([], cache, [t]) ∧
        (fetchRelevantExamples remote2 [t] cache).2.2 = [t]) ∧
      (∀ e, fetchExampleFromQnA remote t = some e →
        fetchRelevantExamples remote [t] cache = ([e], cache ++ [(t, e)], [t]) ∧
        fetchRelevantExamples remote2 [t] (cache ++ [(t, e)]) = ([e], cache ++ [(t, e)], []))) ∧
    (∀ (remote : String → Except Unit (Option String)) (types : List String)
        (cache : List (String × String)) (p : String × String),
      p ∈ (fetchRelevantExamples remote types cache).2.1 →
      p ∈ cache ∨ fetchExampleFromQnA remote p.1 = some p.2) := by
  constructor
  · intro remote remote2 cache t hct
    constructor
    · intro hq
      constructor
      · simp [fetchRelevantExamples, hct, hq]
      · cases hq2 : fetchExampleFromQnA remote2 t <;>
          simp [fetchRelevantExamples, hct, hq2]
    · intro e hq
      constructor
      · simp [fetchRelevantExamples, hct, hq]
      · have hfound := lookup_append_right hct e
        simp [fetchRelevantExamples, hfound]
  · exact fun remote types cache p => fetch_cache_sound remote types cache p

/-- Witness for C9: concrete always-failing and always-succeeding remote
capabilities on the type "Button" with an empty initial cache. -/
theorem c9_example_cache_witness :
    fetchRelevantExamples (fun _ => .error ()) ["Button"] [] = ([], [], ["Button"]) ∧
    fetchRelevantExamples (fun _ => .ok (some "EX")) ["Button"] [] =
      (["EX"], [("Button", "EX")], ["Button"]) ∧
    fetchRelevantExamples (fun _ => .error ()) ["Button"] [("Button", "EX")] =
      (["EX"], [("Button", "EX")], []) := by
  have h1 := (c9_example_cache.1 (fun _ => .error ()) (fun _ => .error ()) [] "Button" rfl).1 rfl
  have h2 := (c9_example_cache.1 (fun _ => .ok (some "EX")) (fun _ => .error ()) [] "Button"
    rfl).2 "EX" rfl
  exact ⟨h1.1, h2.1, h2.2⟩

/-- C10: when a node's display name case-insensitively contains a catalog
key, the classifier returns a matching key such that no catalog key
declared earlier matches (ties resolve to the earliest declaration); in
particular "Card Text" classifies as Card and "Text Button" as Button. -/
theorem c10_earliest_match :
    (∀ (d : NodeData) (nm : String), d.name = some nm → nm ≠ "" →
      ∀ k ∈ catalogKeys, nameIncludes nm k = true →
      ∃ r, detectComponentType d = some r ∧ r ∈ catalogKeys ∧ nameIncludes nm r = true ∧
        ∀ k2 ∈ catalogKeys.take (catalogKeys.indexOf r), nameIncludes nm k2 = false) ∧
    detectComponentType { name := some "Card Text", type := "TEXT" } = some "Card" ∧
    detectComponentType { name := some "Text Button", type := "TEXT" } = some "Button" := by
  refine ⟨?_, rfl, rfl⟩
  intro d nm hname hne k hk hmatch
  cases hr : nameMatch nm with
  | none =>
    have : (catalogKeys.find? fun k => nameIncludes nm k) = none := hr
    rw [List.find?_eq_none] at this
    exact absurd hmatch (by simpa using this k hk)
  | some r =>
    refine ⟨r, ?_, nameMatch_mem hr, List.find?_some hr, find?_take_false _ _ _ hr⟩
    have hbn : detectByName d = some r := by
      simp [detectByName, hname, hne, hr]
    unfold detectComponentType
    rw [hbn]

/-- Witness for C10: the "Card Text" node, using the matching key
"Text". -/
theorem c10_earliest_match_witness :
    ∃ r, detectComponentType { name := some "Card Text", type := "TEXT" } = some r ∧
      r ∈ catalogKeys ∧ nameIncludes "Card Text" r = true ∧
      ∀ k2 ∈ catalogKeys.take (catalogKeys.indexOf r), nameIncludes "Card Text" k2 = false :=
  c10_earliest_match.1 { name := some "Card Text", type := "TEXT" } "Card Text" rfl
    (by decide) "Text" (by decide) (by decide)

end CodeGen
